import Mathlib

/-!
Verification of the execution-tracking and commit-orchestration subsystem
(`src/main/src/services/executionTracker.ts`).  The TypeScript class
`ExecutionTracker` is embedded shallowly: its mutable `Map` registry becomes an
association list, each collaborator call (session manager, commit manager, git
diff manager) is an oracle supplied in an environment record, and every side
effect (collaborator invocation, `addSessionOutput`, `emit`) is logged in an
event trace.  Fallible collaborator calls return `Except String`.
-/

namespace CrystalExec

/-- Commit policy, source union type `'structured' | 'checkpoint' | 'disabled'`. -/
inductive CommitMode where
  | structured
  | checkpoint
  | disabled
deriving DecidableEq, Repr

/-- Effective commit-mode settings (shared/types `CommitModeSettings`); the
subsystem reads only `mode` and the checkpoint prefix (source field name
`checkpointPrefix`). -/
structure CommitModeSettings where
  mode : CommitMode
  checkpointPrefixText : String
deriving DecidableEq, Repr

/-- Result of `JSON.parse` on a serialized `commitModeSettings` payload: the
parsed object may or may not carry each field.  `none` at the outer level
(modelled by `Option` in the environment) is a parse error, caught by the code. -/
structure ParsedCommitModeSettings where
  mode : Option CommitMode
  checkpointPrefixText : Option String
deriving DecidableEq, Repr

/-- The slice of a session record read by `endExecution`:
`commitMode`, serialized `commitModeSettings`, legacy `autoCommit`. -/
structure Session where
  commitMode : Option CommitMode
  commitModeSettings : Option String
  autoCommit : Option Bool
deriving DecidableEq, Repr

/-- Aggregate diff statistics. -/
structure DiffStats where
  additions : Nat
  deletions : Nat
  filesChanged : Nat
deriving DecidableEq, Repr

/-- `GitDiffResult` from `gitDiffManager`. -/
structure GitDiffResult where
  diff : String
  stats : DiffStats
  changedFiles : List String
  beforeHash : String
  afterHash : String
deriving DecidableEq, Repr

/-- Result shape of `commitManager.handlePostPromptCommit` and
`commitManager.waitForStructuredCommit`: `{success, commitHash?, error?}`. -/
structure CommitResult where
  success : Bool
  commitHash : Option String
  error : Option String
deriving DecidableEq, Repr

/-- `ExecutionContext` (executionTracker.ts lines 12-19). -/
structure ExecutionContext where
  sessionId : String
  worktreePath : String
  promptMarkerId : Option Nat
  beforeCommitHash : String
  executionSequence : Nat
  prompt : Option String
deriving DecidableEq, Repr

/-- `CreateExecutionDiffData` payload persisted via
`sessionManager.createExecutionDiff` (lines 240-251). -/
structure CreateExecutionDiffData where
  session_id : String
  prompt_marker_id : Option Nat
  execution_sequence : Nat
  git_diff : String
  files_changed : List String
  stats_additions : Nat
  stats_deletions : Nat
  stats_files_changed : Nat
  before_commit_hash : String
  after_commit_hash : String
deriving DecidableEq, Repr

/-- A persisted execution-diff row, as returned by `createExecutionDiff`
(with its assigned id) and by `getExecutionDiffs`.  `git_diff` and
`files_changed` are nullable columns. -/
structure ExecutionDiffRecord where
  id : Nat
  git_diff : Option String
  stats_additions : Nat
  stats_deletions : Nat
  stats_files_changed : Nat
  files_changed : Option (List String)
  before_commit_hash : String
  after_commit_hash : String
deriving DecidableEq, Repr

/-- Subtypes of the system messages written to session output. -/
inductive OutputSubtype where
  | autocommit_error
  | autocommit_success
  | autocommit_mode
  | autocommit_timeout
  | autocommit_claude_success
deriving DecidableEq, Repr

/-- The fields of an `addSessionOutput` system message that the subsystem
determines (timestamps and free-text message bodies are omitted). -/
structure OutputMsg where
  subtype : OutputSubtype
  mode : CommitMode
  commit_hash : Option String
  error : Option String
deriving DecidableEq, Repr

/-- Observable effects of the tracker, in program order: collaborator calls
and emitted events. -/
inductive Event where
  | callHandlePostPromptCommit (sessionId worktreePath : String)
      (settings : CommitModeSettings) (prompt : Option String) (executionSequence : Nat)
  | addSessionOutput (sessionId : String) (msg : OutputMsg)
  | callWaitForStructuredCommit (sessionId worktreePath : String) (timeoutMs : Nat)
  | callGetCurrentCommitHash (worktreePath : String)
  | callCaptureWorkingDirectoryDiff (worktreePath : String)
  | callCaptureCommitDiff (worktreePath beforeHash afterHash : String)
  | callCreateExecutionDiff (data : CreateExecutionDiffData)
  | emitStarted (sessionId : String) (executionSequence : Nat)
  | emitCompleted (sessionId : String) (executionSequence : Nat) (diffId : Nat) (stats : DiffStats)
  | emitCancelled (sessionId : String) (executionSequence : Nat)
deriving DecidableEq, Repr

/-- The registry `activeExecutions : Map<string, ExecutionContext>`,
modelled as an association list with unique keys. -/
def TrackerState := List (String × ExecutionContext)

instance : DecidableEq TrackerState := by
  unfold TrackerState
  infer_instance

/-- `Map.get`. -/
def mapGet : TrackerState → String → Option ExecutionContext
  | [], _ => none
  | (k', v) :: rest, k => if k' = k then some v else mapGet rest k

/-- `Map.set`: replaces the entry for the key in place, else appends. -/
def mapSet : TrackerState → String → ExecutionContext → TrackerState
  | [], k, v => [(k, v)]
  | (k', v') :: rest, k, v =>
      if k' = k then (k, v) :: rest else (k', v') :: mapSet rest k v

/-- `Map.delete`. -/
def mapDelete (m : TrackerState) (k : String) : TrackerState :=
  m.filter (fun p => decide (p.1 ≠ k))

/-- The keys of the registry are pairwise distinct (Map semantics). -/
def keysNodup (m : TrackerState) : Prop :=
  (m.map Prod.fst).Nodup

instance (m : TrackerState) : Decidable (keysNodup m) := by
  unfold keysNodup
  infer_instance

theorem mapGet_set_self (m : TrackerState) (k : String) (v : ExecutionContext) :
    mapGet (mapSet m k v) k = some v := by
  induction m with
  | nil => simp [mapSet, mapGet]
  | cons p rest ih =>
    obtain ⟨k', v'⟩ := p
    by_cases h : k' = k
    · simp [mapSet, mapGet, h]
    · simp [mapSet, mapGet, h, ih]

theorem mapGet_set_ne (m : TrackerState) (k k' : String) (v : ExecutionContext)
    (h : k' ≠ k) : mapGet (mapSet m k v) k' = mapGet m k' := by
  induction m with
  | nil => simp [mapSet, mapGet, Ne.symm h]
  | cons p rest ih =>
    obtain ⟨k₀, v₀⟩ := p
    by_cases h₀ : k₀ = k
    · subst h₀
      simp [mapSet, mapGet, Ne.symm h]
    · simp only [mapSet, if_neg h₀, mapGet]
      by_cases h₁ : k₀ = k'
      · simp [h₁]
      · simp [h₁, ih]

theorem mapGet_delete_self (m : TrackerState) (k : String) :
    mapGet (mapDelete m k) k = none := by
  induction m with
  | nil => simp [mapDelete, mapGet]
  | cons p rest ih =>
    obtain ⟨k', v'⟩ := p
    by_cases h : k' = k
    · simp [mapDelete, List.filter, h] at ih ⊢
      exact ih
    · simp only [mapDelete, List.filter, decide_not] at ih ⊢
      simp [h, mapGet, ih]

theorem keys_mapSet_sub (m : TrackerState) (k : String) (v : ExecutionContext) (x : String) :
    x ∈ (mapSet m k v).map Prod.fst → x ∈ m.map Prod.fst ∨ x = k := by
  induction m with
  | nil => simp [mapSet]
  | cons p rest ih =>
    obtain ⟨k', v'⟩ := p
    by_cases hk : k' = k
    · subst hk
      simp [mapSet]
      tauto
    · simp only [mapSet, if_neg hk, List.map_cons, List.mem_cons]
      rintro (rfl | hx)
      · tauto
      · rcases ih hx with h₁ | h₁ <;> tauto

theorem keysNodup_mapSet (m : TrackerState) (k : String) (v : ExecutionContext)
    (h : keysNodup m) : keysNodup (mapSet m k v) := by
  induction m with
  | nil => simp [mapSet, keysNodup]
  | cons p rest ih =>
    obtain ⟨k', v'⟩ := p
    unfold keysNodup at h
    simp only [List.map_cons, List.nodup_cons] at h
    by_cases hk : k' = k
    · subst hk
      unfold keysNodup
      simpa [mapSet] using h
    · have hrest := ih h.2
      unfold keysNodup at hrest ⊢
      simp only [mapSet, if_neg hk, List.map_cons, List.nodup_cons]
      refine ⟨?_, hrest⟩
      intro hmem
      rcases keys_mapSet_sub rest k v k' hmem with h₁ | h₁
      · exact h.1 h₁
      · exact hk h₁

theorem keysNodup_mapDelete (m : TrackerState) (k : String)
    (h : keysNodup m) : keysNodup (mapDelete m k) := by
  unfold keysNodup at h ⊢
  exact h.sublist ((List.filter_sublist m).map Prod.fst)

/-- `isTracking` on the empty registry (the state before any `startExecution`). -/
def emptyTrackerState : TrackerState := []

instance : DecidableEq (Except String Unit) := fun a b =>
  match a, b with
  | .error x, .error y => decidable_of_iff (x = y) (by simp)
  | .ok x, .ok y => isTrue (by cases x; cases y; rfl)
  | .error _, .ok _ => isFalse (by simp)
  | .ok _, .error _ => isFalse (by simp)

/-- Outcome of one tracker operation: the registry afterwards, the trace of
observable effects in order, and normal return versus a propagated error. -/
structure TrackResult where
  state : TrackerState
  trace : List Event
  result : Except String Unit
deriving DecidableEq

/-- Environment for `startExecution`: the two collaborator calls it makes,
either of which may fail (`Except.error` models a thrown exception). -/
structure StartEnv where
  getNextExecutionSequence : Except String Nat
  getCurrentCommitHash : Except String String

/-- `startExecution` (lines 35-62): allocates the sequence number, reads the
current commit hash, stores the context and emits `execution-started`.  The
`catch` block only logs and re-throws, so a failure leaves the registry
unchanged and emits nothing. -/
def startExecution (env : StartEnv) (st : TrackerState) (sessionId worktreePath : String)
    (promptMarkerId : Option Nat) (prompt : Option String) : TrackResult :=
  match env.getNextExecutionSequence with
  | .error e => ⟨st, [], .error e⟩
  | .ok executionSequence =>
    match env.getCurrentCommitHash with
    | .error e => ⟨st, [], .error e⟩
    | .ok beforeCommitHash =>
      let context : ExecutionContext :=
        ⟨sessionId, worktreePath, promptMarkerId, beforeCommitHash, executionSequence, prompt⟩
      ⟨mapSet st sessionId context, [.emitStarted sessionId executionSequence], .ok ()⟩

/-- `cancelExecution` (lines 280-287): deletes the context and emits
`execution-cancelled` when one is present, otherwise does nothing. -/
def cancelExecution (st : TrackerState) (sessionId : String) :
    TrackerState × List Event :=
  match mapGet st sessionId with
  | some context =>
      (mapDelete st sessionId, [.emitCancelled sessionId context.executionSequence])
  | none => (st, [])

/-- `isTracking` (lines 292-294). -/
def isTracking (st : TrackerState) (sessionId : String) : Bool :=
  (mapGet st sessionId).isSome

/-- `getExecutionContext` (lines 299-301). -/
def getExecutionContext (st : TrackerState) (sessionId : String) :
    Option ExecutionContext :=
  mapGet st sessionId

/-- JavaScript truthiness of an optional string: `undefined`, `null` and the
empty string are falsy. -/
def strTruthy : Option String → Bool
  | none => false
  | some s => !(s == "")

/-- JavaScript `a || b` on an optional string with a string default. -/
def jsOr : Option String → String → String
  | some s, d => if s == "" then d else s
  | none, d => d

/-- Environment for `endExecution`: results of every collaborator call it can
make.  `parseSettings` models `JSON.parse` on the serialized settings
(`none` is a parse error, i.e. a throw that the code catches); the git and
persistence calls may fail, which the code's `catch` re-throws. -/
structure EndEnv where
  getSession : Option Session
  parseSettings : String → Option ParsedCommitModeSettings
  handlePostPromptCommit : CommitResult
  waitForStructuredCommit : CommitResult
  getCurrentCommitHash : Except String String
  captureWorkingDirectoryDiff : Except String GitDiffResult
  captureCommitDiff : String → String → Except String GitDiffResult
  createExecutionDiff : CreateExecutionDiffData → Except String ExecutionDiffRecord

/-- Default settings (lines 82-86): mode `checkpoint`, prefix `"checkpoint: "`. -/
def defaultCommitModeSettings : CommitModeSettings :=
  ⟨CommitMode.checkpoint, "checkpoint: "⟩

/-- Commit-mode resolution (lines 82-109).  Precedence: explicit
`session.commitMode` (merging parsed `commitModeSettings` over the defaults
and forcing `mode`; a parse failure is caught and leaves the defaults with
the forced mode), else legacy `autoCommit` (`true ↦ checkpoint`,
`false ↦ disabled`), else the checkpoint default. -/
def resolveCommitMode (parse : String → Option ParsedCommitModeSettings)
    (session : Option Session) : CommitModeSettings :=
  match session with
  | none => defaultCommitModeSettings
  | some s =>
    match s.commitMode with
    | some m =>
      let base : CommitModeSettings := { defaultCommitModeSettings with mode := m }
      match s.commitModeSettings with
      | some payload =>
        match parse payload with
        | some parsed =>
            { mode := m,
              checkpointPrefixText :=
                parsed.checkpointPrefixText.getD base.checkpointPrefixText }
        | none => base
      | none => base
    | none =>
      match s.autoCommit with
      | some b =>
          { defaultCommitModeSettings with
              mode := if b then CommitMode.checkpoint else CommitMode.disabled }
      | none => defaultCommitModeSettings

/-- Session-output messages written right after `handlePostPromptCommit`
(lines 122-174): an `autocommit_error` on a failed attempt with a (truthy)
error; on success, `autocommit_success` in checkpoint mode and
`autocommit_mode` in structured mode; nothing in disabled mode. -/
def commitPhaseMessages (commitMode : CommitMode) (r : CommitResult) : List OutputMsg :=
  if !r.success && strTruthy r.error then
    [{ subtype := OutputSubtype.autocommit_error, mode := commitMode,
       commit_hash := none, error := r.error }]
  else if r.success && !(commitMode == CommitMode.disabled) then
    match commitMode with
    | CommitMode.checkpoint =>
        [{ subtype := OutputSubtype.autocommit_success, mode := CommitMode.checkpoint,
           commit_hash := r.commitHash, error := none }]
    | CommitMode.structured =>
        [{ subtype := OutputSubtype.autocommit_mode, mode := CommitMode.structured,
           commit_hash := none, error := none }]
    | CommitMode.disabled => []
  else []

/-- Session-output messages of the structured wait phase (lines 185-216):
`autocommit_timeout` when the wait failed, `autocommit_claude_success` when it
succeeded with a (truthy) commit hash, nothing otherwise. -/
def structuredWaitMessages (w : CommitResult) : List OutputMsg :=
  if !w.success then
    [{ subtype := OutputSubtype.autocommit_timeout, mode := CommitMode.structured,
       commit_hash := none, error := some (jsOr w.error "Timeout waiting for commit") }]
  else if strTruthy w.commitHash then
    [{ subtype := OutputSubtype.autocommit_claude_success, mode := CommitMode.structured,
       commit_hash := w.commitHash, error := none }]
  else []

/-- The `CreateExecutionDiffData` row built at lines 240-251. -/
def mkDiffData (sessionId : String) (context : ExecutionContext)
    (executionDiff : GitDiffResult) : CreateExecutionDiffData :=
  { session_id := sessionId,
    prompt_marker_id := context.promptMarkerId,
    execution_sequence := context.executionSequence,
    git_diff := executionDiff.diff,
    files_changed := executionDiff.changedFiles,
    stats_additions := executionDiff.stats.additions,
    stats_deletions := executionDiff.stats.deletions,
    stats_files_changed := executionDiff.stats.filesChanged,
    before_commit_hash := executionDiff.beforeHash,
    after_commit_hash := executionDiff.afterHash }

/-- Common tail of `endExecution` after a diff capture (lines 239-268):
persist exactly one row, emit `execution-completed`, delete the context.  A
capture or persistence failure is re-thrown by the `catch`, which also
deletes the context.  `capEv` is the capture call just made and `res` its
result. -/
def finishDiff (env : EndEnv) (st : TrackerState) (sessionId : String)
    (context : ExecutionContext) (capEv : Event)
    (res : Except String GitDiffResult) : TrackResult :=
  match res with
  | .error e => ⟨mapDelete st sessionId, [capEv], .error e⟩
  | .ok executionDiff =>
    let diffData := mkDiffData sessionId context executionDiff
    match env.createExecutionDiff diffData with
    | .error e =>
        ⟨mapDelete st sessionId, [capEv, .callCreateExecutionDiff diffData], .error e⟩
    | .ok createdDiff =>
        ⟨mapDelete st sessionId,
         [capEv, .callCreateExecutionDiff diffData,
          .emitCompleted sessionId context.executionSequence createdDiff.id
            executionDiff.stats],
         .ok ()⟩

/-- `endExecution` from the post-commit hash onward (lines 222-268): use the
working-directory diff when the hash is unchanged, else the commit-range
diff, then persist and complete. -/
def endExecutionPostHash (env : EndEnv) (st : TrackerState) (sessionId : String)
    (context : ExecutionContext) (afterCommitHash : String) : TrackResult :=
  if afterCommitHash = context.beforeCommitHash then
    finishDiff env st sessionId context
      (Event.callCaptureWorkingDirectoryDiff context.worktreePath)
      env.captureWorkingDirectoryDiff
  else
    finishDiff env st sessionId context
      (Event.callCaptureCommitDiff context.worktreePath context.beforeCommitHash
        afterCommitHash)
      (env.captureCommitDiff context.beforeCommitHash afterCommitHash)

/-- `endExecution` from the post-commit hash read (line 220) onward; a hash
read failure is re-thrown by the `catch`, which deletes the context. -/
def endExecutionCore (env : EndEnv) (st : TrackerState) (sessionId : String)
    (context : ExecutionContext) : TrackResult :=
  match env.getCurrentCommitHash with
  | .error e =>
      ⟨mapDelete st sessionId, [Event.callGetCurrentCommitHash context.worktreePath],
       .error e⟩
  | .ok afterCommitHash =>
    let r := endExecutionPostHash env st sessionId context afterCommitHash
    ⟨r.state, Event.callGetCurrentCommitHash context.worktreePath :: r.trace, r.result⟩

/-- Trace of the commit phase (lines 114-174): the `handlePostPromptCommit`
call followed by its session-output messages. -/
def commitPhaseTrace (env : EndEnv) (sessionId : String) (context : ExecutionContext)
    (settings : CommitModeSettings) : List Event :=
  Event.callHandlePostPromptCommit sessionId context.worktreePath settings
      context.prompt context.executionSequence
    :: (commitPhaseMessages settings.mode env.handlePostPromptCommit).map
        (Event.addSessionOutput sessionId)

/-- Trace of the structured wait phase (lines 177-217): in structured mode,
the `waitForStructuredCommit` call (5000 ms timeout) followed by its
session-output messages; empty otherwise. -/
def structuredWaitTrace (env : EndEnv) (sessionId : String)
    (context : ExecutionContext) (mode : CommitMode) : List Event :=
  if mode = CommitMode.structured then
    Event.callWaitForStructuredCommit sessionId context.worktreePath 5000
      :: (structuredWaitMessages env.waitForStructuredCommit).map
          (Event.addSessionOutput sessionId)
  else []

/-- `endExecution` (lines 67-275).  With no active context it is a silent
no-op; otherwise it resolves the commit mode, runs the commit phase, the
structured wait phase when applicable, then the core (hash re-read, diff
capture, persistence, completion event, context removal). -/
def endExecution (env : EndEnv) (st : TrackerState) (sessionId : String) : TrackResult :=
  match mapGet st sessionId with
  | none => ⟨st, [], .ok ()⟩
  | some context =>
    let settings := resolveCommitMode env.parseSettings env.getSession
    let r := endExecutionCore env st sessionId context
    ⟨r.state,
     commitPhaseTrace env sessionId context settings
       ++ structuredWaitTrace env sessionId context settings.mode
       ++ r.trace,
     r.result⟩

/-- Session-output messages occurring in a trace, in order. -/
def sessionOutputs (tr : List Event) : List OutputMsg :=
  tr.filterMap (fun e =>
    match e with
    | Event.addSessionOutput _ m => some m
    | _ => none)

/-- `CreateExecutionDiffData` rows submitted to `createExecutionDiff` in a
trace, in order. -/
def persistedRecords (tr : List Event) : List CreateExecutionDiffData :=
  tr.filterMap (fun e =>
    match e with
    | Event.callCreateExecutionDiff d => some d
    | _ => none)

/-- Is the event one of the two diff-capture collaborator calls? -/
def isCaptureCall : Event → Bool
  | Event.callCaptureWorkingDirectoryDiff _ => true
  | Event.callCaptureCommitDiff _ _ _ => true
  | _ => false

/-- Is the event a `waitForStructuredCommit` collaborator call? -/
def isWaitCall : Event → Bool
  | Event.callWaitForStructuredCommit _ _ _ => true
  | _ => false

/-- Is the event a `getCurrentCommitHash` collaborator call? -/
def isHashReadCall : Event → Bool
  | Event.callGetCurrentCommitHash _ => true
  | _ => false

/-- Is the event an `execution-completed` emission? -/
def isEmitCompletedEv : Event → Bool
  | Event.emitCompleted _ _ _ _ => true
  | _ => false

/-- Mapping of a persisted row back to a `GitDiffResult` (lines 320-330);
`exec.git_diff!` after the truthiness filter, `exec.files_changed || []`. -/
def toGitDiffResult (e : ExecutionDiffRecord) : GitDiffResult :=
  { diff := e.git_diff.getD "",
    stats := ⟨e.stats_additions, e.stats_deletions, e.stats_files_changed⟩,
    changedFiles := e.files_changed.getD [],
    beforeHash := e.before_commit_hash,
    afterHash := e.after_commit_hash }

/-- The list handed to `combineDiffs` by `getCombinedDiff` (lines 312-330):
filter by `executionIds` only when that list is present and non-empty, keep
only rows with a truthy `git_diff`, map to `GitDiffResult`. -/
def combinedDiffInputs (executions : List ExecutionDiffRecord)
    (executionIds : Option (List Nat)) : List GitDiffResult :=
  let filteredExecutions : List ExecutionDiffRecord :=
    match executionIds with
    | some ids =>
        if ids.length > 0 then
          executions.filter (fun (e : ExecutionDiffRecord) => ids.contains e.id)
        else executions
    | none => executions
  (filteredExecutions.filter
      (fun (e : ExecutionDiffRecord) => strTruthy e.git_diff)).map toGitDiffResult

/-- `getCombinedDiff` (lines 306-335), parameterized by the session's
persisted rows (`sessionManager.getExecutionDiffs`) and by
`gitDiffManager.combineDiffs`, both external collaborators. -/
def getCombinedDiff (combineDiffs : List GitDiffResult → GitDiffResult)
    (executions : List ExecutionDiffRecord)
    (executionIds : Option (List Nat)) : GitDiffResult :=
  combineDiffs (combinedDiffInputs executions executionIds)

theorem sessionOutputs_append (l₁ l₂ : List Event) :
    sessionOutputs (l₁ ++ l₂) = sessionOutputs l₁ ++ sessionOutputs l₂ :=
  List.filterMap_append l₁ l₂ _

theorem sessionOutputs_map_addSessionOutput (s : String) (msgs : List OutputMsg) :
    sessionOutputs (msgs.map (Event.addSessionOutput s)) = msgs := by
  induction msgs with
  | nil => rfl
  | cons m rest ih => simpa [sessionOutputs, List.filterMap_cons] using ih

/-- One step of `sessionOutputs`: an `addSessionOutput` event contributes its
message, every other event contributes nothing. -/
theorem sessionOutputs_cons (e : Event) (tr : List Event) :
    sessionOutputs (e :: tr)
      = (match e with
          | Event.addSessionOutput _ m => [m]
          | _ => []) ++ sessionOutputs tr := by
  cases e <;> simp [sessionOutputs, List.filterMap_cons]

theorem sessionOutputs_finishDiff (env : EndEnv) (st : TrackerState)
    (sessionId : String) (context : ExecutionContext) (capEv : Event)
    (res : Except String GitDiffResult) (hcap : isCaptureCall capEv = true) :
    sessionOutputs (finishDiff env st sessionId context capEv res).trace = [] := by
  rcases res with e | g
  · cases capEv <;> simp [isCaptureCall] at hcap <;>
      simp [finishDiff, sessionOutputs, List.filterMap_cons]
  · rcases hc : env.createExecutionDiff (mkDiffData sessionId context g) with e | r <;>
      cases capEv <;> simp [isCaptureCall] at hcap <;>
      simp [finishDiff, hc, sessionOutputs, List.filterMap_cons]

theorem sessionOutputs_endExecutionPostHash (env : EndEnv) (st : TrackerState)
    (sessionId : String) (context : ExecutionContext) (afterCommitHash : String) :
    sessionOutputs (endExecutionPostHash env st sessionId context afterCommitHash).trace
      = [] := by
  unfold endExecutionPostHash
  by_cases h : afterCommitHash = context.beforeCommitHash
  · rw [if_pos h]
    exact sessionOutputs_finishDiff env st sessionId context _ _ rfl
  · rw [if_neg h]
    exact sessionOutputs_finishDiff env st sessionId context _ _ rfl

theorem sessionOutputs_endExecutionCore (env : EndEnv) (st : TrackerState)
    (sessionId : String) (context : ExecutionContext) :
    sessionOutputs (endExecutionCore env st sessionId context).trace = [] := by
  unfold endExecutionCore
  rcases h : env.getCurrentCommitHash with e | afterCommitHash
  · rfl
  · simp only []
    rw [sessionOutputs_cons]
    simpa using sessionOutputs_endExecutionPostHash env st sessionId context afterCommitHash

theorem sessionOutputs_commitPhaseTrace (env : EndEnv) (sessionId : String)
    (context : ExecutionContext) (settings : CommitModeSettings) :
    sessionOutputs (commitPhaseTrace env sessionId context settings)
      = commitPhaseMessages settings.mode env.handlePostPromptCommit := by
  unfold commitPhaseTrace
  rw [sessionOutputs_cons]
  simp [sessionOutputs_map_addSessionOutput]

theorem sessionOutputs_structuredWaitTrace (env : EndEnv) (sessionId : String)
    (context : ExecutionContext) (mode : CommitMode) :
    sessionOutputs (structuredWaitTrace env sessionId context mode)
      = (if mode = CommitMode.structured
         then structuredWaitMessages env.waitForStructuredCommit
         else []) := by
  unfold structuredWaitTrace
  by_cases hm : mode = CommitMode.structured
  · rw [if_pos hm, if_pos hm, sessionOutputs_cons]
    simp [sessionOutputs_map_addSessionOutput]
  · rw [if_neg hm, if_neg hm]
    rfl

theorem filter_map_addSessionOutput (p : Event → Bool)
    (hp : ∀ s m, p (Event.addSessionOutput s m) = false)
    (s : String) (msgs : List OutputMsg) :
    (msgs.map (Event.addSessionOutput s)).filter p = [] := by
  induction msgs with
  | nil => rfl
  | cons m rest ih => simp [List.filter_cons, hp, ih]

theorem filter_commitPhaseTrace (p : Event → Bool) (env : EndEnv)
    (sessionId : String) (context : ExecutionContext) (settings : CommitModeSettings)
    (hh : ∀ a b c d e, p (Event.callHandlePostPromptCommit a b c d e) = false)
    (hp : ∀ s m, p (Event.addSessionOutput s m) = false) :
    (commitPhaseTrace env sessionId context settings).filter p = [] := by
  unfold commitPhaseTrace
  simp [List.filter_cons, hh, filter_map_addSessionOutput p hp]

theorem filter_structuredWaitTrace (p : Event → Bool) (env : EndEnv)
    (sessionId : String) (context : ExecutionContext) (mode : CommitMode)
    (hw : ∀ a b t, p (Event.callWaitForStructuredCommit a b t) = false)
    (hp : ∀ s m, p (Event.addSessionOutput s m) = false) :
    (structuredWaitTrace env sessionId context mode).filter p = [] := by
  unfold structuredWaitTrace
  by_cases hm : mode = CommitMode.structured <;>
    simp [hm, List.filter_cons, hw, filter_map_addSessionOutput p hp]

theorem filter_wait_structuredWaitTrace (env : EndEnv) (sessionId : String)
    (context : ExecutionContext) (mode : CommitMode) :
    (structuredWaitTrace env sessionId context mode).filter isWaitCall
      = (if mode = CommitMode.structured
         then [Event.callWaitForStructuredCommit sessionId context.worktreePath 5000]
         else []) := by
  unfold structuredWaitTrace
  by_cases hm : mode = CommitMode.structured <;>
    simp [hm, List.filter_cons, isWaitCall,
      filter_map_addSessionOutput isWaitCall (fun _ _ => rfl)]

theorem filter_finishDiff (p : Event → Bool) (env : EndEnv) (st : TrackerState)
    (sessionId : String) (context : ExecutionContext) (capEv : Event)
    (res : Except String GitDiffResult)
    (hcr : ∀ d, p (Event.callCreateExecutionDiff d) = false)
    (hem : ∀ a b c d, p (Event.emitCompleted a b c d) = false) :
    (finishDiff env st sessionId context capEv res).trace.filter p
      = [capEv].filter p := by
  rcases res with e | g
  · simp [finishDiff]
  · rcases hk : env.createExecutionDiff (mkDiffData sessionId context g) with e | r <;>
      simp [finishDiff, hk, List.filter_cons, hcr, hem]

theorem finishDiff_state (env : EndEnv) (st : TrackerState) (sessionId : String)
    (context : ExecutionContext) (capEv : Event) (res : Except String GitDiffResult) :
    (finishDiff env st sessionId context capEv res).state = mapDelete st sessionId := by
  rcases res with e | g
  · simp [finishDiff]
  · rcases hk : env.createExecutionDiff (mkDiffData sessionId context g) with e | r <;>
      simp [finishDiff, hk]

theorem endExecutionPostHash_state (env : EndEnv) (st : TrackerState)
    (sessionId : String) (context : ExecutionContext) (afterCommitHash : String) :
    (endExecutionPostHash env st sessionId context afterCommitHash).state
      = mapDelete st sessionId := by
  unfold endExecutionPostHash
  by_cases h : afterCommitHash = context.beforeCommitHash <;>
    simp [h, finishDiff_state]

theorem endExecutionCore_state (env : EndEnv) (st : TrackerState)
    (sessionId : String) (context : ExecutionContext) :
    (endExecutionCore env st sessionId context).state = mapDelete st sessionId := by
  unfold endExecutionCore
  rcases h : env.getCurrentCommitHash with e | afterCommitHash
  · rfl
  · simpa using endExecutionPostHash_state env st sessionId context afterCommitHash

/-- `endExecution` with an active context, unfolded into its phases. -/
theorem endExecution_some (env : EndEnv) (st : TrackerState) (sessionId : String)
    (context : ExecutionContext) (hctx : mapGet st sessionId = some context) :
    endExecution env st sessionId =
      ⟨(endExecutionCore env st sessionId context).state,
       commitPhaseTrace env sessionId context
           (resolveCommitMode env.parseSettings env.getSession)
         ++ structuredWaitTrace env sessionId context
             (resolveCommitMode env.parseSettings env.getSession).mode
         ++ (endExecutionCore env st sessionId context).trace,
       (endExecutionCore env st sessionId context).result⟩ := by
  unfold endExecution
  rw [hctx]

/-- `endExecution` with an active context always deletes the context,
whether it succeeds or re-throws. -/
theorem endExecution_state (env : EndEnv) (st : TrackerState) (sessionId : String)
    (context : ExecutionContext) (hctx : mapGet st sessionId = some context) :
    (endExecution env st sessionId).state = mapDelete st sessionId := by
  rw [endExecution_some env st sessionId context hctx]
  exact endExecutionCore_state env st sessionId context

/-- The session outputs of an `endExecution` run with an active context are
exactly the commit-phase messages followed by the structured-wait messages. -/
theorem sessionOutputs_endExecution (env : EndEnv) (st : TrackerState)
    (sessionId : String) (context : ExecutionContext)
    (hctx : mapGet st sessionId = some context) :
    sessionOutputs (endExecution env st sessionId).trace =
      commitPhaseMessages (resolveCommitMode env.parseSettings env.getSession).mode
          env.handlePostPromptCommit
        ++ (if (resolveCommitMode env.parseSettings env.getSession).mode
              = CommitMode.structured
            then structuredWaitMessages env.waitForStructuredCommit
            else []) := by
  unfold endExecution
  rw [hctx]
  simp only [sessionOutputs_append, sessionOutputs_endExecutionCore, List.append_nil,
    sessionOutputs_commitPhaseTrace, sessionOutputs_structuredWaitTrace]

theorem persistedRecords_append (l₁ l₂ : List Event) :
    persistedRecords (l₁ ++ l₂) = persistedRecords l₁ ++ persistedRecords l₂ :=
  List.filterMap_append l₁ l₂ _

theorem persistedRecords_cons (e : Event) (tr : List Event) :
    persistedRecords (e :: tr)
      = (match e with
          | Event.callCreateExecutionDiff d => [d]
          | _ => []) ++ persistedRecords tr := by
  cases e <;> simp [persistedRecords, List.filterMap_cons]

theorem persistedRecords_map_addSessionOutput (s : String) (msgs : List OutputMsg) :
    persistedRecords (msgs.map (Event.addSessionOutput s)) = [] := by
  induction msgs with
  | nil => rfl
  | cons m rest ih => simp [persistedRecords, List.filterMap_cons, ← ih]

theorem persistedRecords_commitPhaseTrace (env : EndEnv) (sessionId : String)
    (context : ExecutionContext) (settings : CommitModeSettings) :
    persistedRecords (commitPhaseTrace env sessionId context settings) = [] := by
  unfold commitPhaseTrace
  rw [persistedRecords_cons]
  simp [persistedRecords_map_addSessionOutput]

theorem persistedRecords_structuredWaitTrace (env : EndEnv) (sessionId : String)
    (context : ExecutionContext) (mode : CommitMode) :
    persistedRecords (structuredWaitTrace env sessionId context mode) = [] := by
  unfold structuredWaitTrace
  by_cases hm : mode = CommitMode.structured
  · rw [if_pos hm, persistedRecords_cons]
    simp [persistedRecords_map_addSessionOutput]
  · rw [if_neg hm]
    rfl

/-- `finishDiff` when persistence succeeds. -/
theorem finishDiff_ok (env : EndEnv) (st : TrackerState) (sessionId : String)
    (context : ExecutionContext) (capEv : Event) (g : GitDiffResult)
    (r : ExecutionDiffRecord)
    (hk : env.createExecutionDiff (mkDiffData sessionId context g) = Except.ok r) :
    finishDiff env st sessionId context capEv (Except.ok g) =
      ⟨mapDelete st sessionId,
       [capEv, Event.callCreateExecutionDiff (mkDiffData sessionId context g),
        Event.emitCompleted sessionId context.executionSequence r.id g.stats],
       Except.ok ()⟩ := by
  simp [finishDiff, hk]

/-- `endExecutionCore` when the post-commit hash read succeeds. -/
theorem endExecutionCore_ok (env : EndEnv) (st : TrackerState) (sessionId : String)
    (context : ExecutionContext) (afterCommitHash : String)
    (hhash : env.getCurrentCommitHash = Except.ok afterCommitHash) :
    endExecutionCore env st sessionId context =
      ⟨(endExecutionPostHash env st sessionId context afterCommitHash).state,
       Event.callGetCurrentCommitHash context.worktreePath
         :: (endExecutionPostHash env st sessionId context afterCommitHash).trace,
       (endExecutionPostHash env st sessionId context afterCommitHash).result⟩ := by
  unfold endExecutionCore
  rw [hhash]

/-- Full characterization of `endExecution` on the success path: the context
is deleted, the trace is the commit phase, the structured wait phase when the
mode is structured, the hash re-read, the selected capture call, the single
persistence call, and the completion event. -/
theorem endExecution_ok (env : EndEnv) (st : TrackerState) (sessionId : String)
    (context : ExecutionContext) (afterCommitHash : String) (g : GitDiffResult)
    (r : ExecutionDiffRecord)
    (hctx : mapGet st sessionId = some context)
    (hhash : env.getCurrentCommitHash = Except.ok afterCommitHash)
    (hcap : (if afterCommitHash = context.beforeCommitHash
             then env.captureWorkingDirectoryDiff
             else env.captureCommitDiff context.beforeCommitHash afterCommitHash)
        = Except.ok g)
    (hk : env.createExecutionDiff (mkDiffData sessionId context g) = Except.ok r) :
    endExecution env st sessionId =
      ⟨mapDelete st sessionId,
       commitPhaseTrace env sessionId context
           (resolveCommitMode env.parseSettings env.getSession)
         ++ structuredWaitTrace env sessionId context
             (resolveCommitMode env.parseSettings env.getSession).mode
         ++ [Event.callGetCurrentCommitHash context.worktreePath,
             (if afterCommitHash = context.beforeCommitHash
              then Event.callCaptureWorkingDirectoryDiff context.worktreePath
              else Event.callCaptureCommitDiff context.worktreePath
                context.beforeCommitHash afterCommitHash),
             Event.callCreateExecutionDiff (mkDiffData sessionId context g),
             Event.emitCompleted sessionId context.executionSequence r.id g.stats],
       Except.ok ()⟩ := by
  rw [endExecution_some env st sessionId context hctx,
    endExecutionCore_ok env st sessionId context afterCommitHash hhash]
  unfold endExecutionPostHash
  by_cases h : afterCommitHash = context.beforeCommitHash
  · rw [if_pos h] at hcap
    simp only [if_pos h]
    rw [hcap, finishDiff_ok env st sessionId context _ g r hk]
  · rw [if_neg h] at hcap
    simp only [if_neg h]
    rw [hcap, finishDiff_ok env st sessionId context _ g r hk]

/-- All session-output messages of one `endExecution` run with an active
context, as a function of the resolved mode and the two commit results. -/
def endOutputs (mode : CommitMode) (r w : CommitResult) : List OutputMsg :=
  commitPhaseMessages mode r
    ++ (if mode = CommitMode.structured then structuredWaitMessages w else [])

theorem sessionOutputs_endExecution_eq (env : EndEnv) (st : TrackerState)
    (sessionId : String) (context : ExecutionContext)
    (hctx : mapGet st sessionId = some context) :
    sessionOutputs (endExecution env st sessionId).trace
      = endOutputs (resolveCommitMode env.parseSettings env.getSession).mode
          env.handlePostPromptCommit env.waitForStructuredCommit :=
  sessionOutputs_endExecution env st sessionId context hctx

/-- The outcome table of the emitted system messages, per mode and result. -/
theorem endOutputs_table (mode : CommitMode) (r w : CommitResult) :
    ((∃ m ∈ endOutputs mode r w, m.subtype = OutputSubtype.autocommit_error)
        ↔ (r.success = false ∧ strTruthy r.error = true)) ∧
    ((∃ m ∈ endOutputs mode r w, m.subtype = OutputSubtype.autocommit_success)
        ↔ (r.success = true ∧ mode = CommitMode.checkpoint)) ∧
    ((∃ m ∈ endOutputs mode r w, m.subtype = OutputSubtype.autocommit_mode)
        ↔ (r.success = true ∧ mode = CommitMode.structured)) ∧
    ((∃ m ∈ endOutputs mode r w, m.subtype = OutputSubtype.autocommit_timeout)
        ↔ (mode = CommitMode.structured ∧ w.success = false)) ∧
    ((∃ m ∈ endOutputs mode r w, m.subtype = OutputSubtype.autocommit_claude_success)
        ↔ (mode = CommitMode.structured ∧ w.success = true
            ∧ strTruthy w.commitHash = true)) ∧
    (mode = CommitMode.disabled → r.success = true → endOutputs mode r w = []) := by
  cases mode <;> cases hs : r.success <;> cases he : strTruthy r.error <;>
    cases hw : w.success <;> cases hh : strTruthy w.commitHash <;>
    simp [endOutputs, commitPhaseMessages, structuredWaitMessages, hs, he, hw, hh]

/-! Concrete fixtures used by witnesses and counterexamples. -/

/-- A concrete active execution context. -/
def ctx0 : ExecutionContext := ⟨"s1", "/wt", none, "h0", 1, none⟩

/-- A registry holding exactly `ctx0`. -/
def st0 : TrackerState := [("s1", ctx0)]

/-- A working-directory diff with two changed files (the worktree is dirty
although no commit happened). -/
def gdWd : GitDiffResult := ⟨"diff text", ⟨3, 1, 2⟩, ["a.txt", "b.txt"], "h0", "h0"⟩

/-- A commit-range diff. -/
def gdCd : GitDiffResult := ⟨"commit diff", ⟨5, 2, 1⟩, ["c.txt"], "h0", "h1"⟩

/-- A persistence collaborator that assigns id 42 and stores the row as given. -/
def mkRec0 (d : CreateExecutionDiffData) : ExecutionDiffRecord :=
  ⟨42, some d.git_diff, d.stats_additions, d.stats_deletions, d.stats_files_changed,
   some d.files_changed, d.before_commit_hash, d.after_commit_hash⟩

/-- A fully successful environment: no session record (checkpoint default),
post-commit hash unchanged at `"h0"`, dirty working tree. -/
def env0 : EndEnv :=
  ⟨none, fun _ => none, ⟨true, some "h1", none⟩, ⟨true, some "h1", none⟩,
   Except.ok "h0", Except.ok gdWd, fun _ _ => Except.ok gdCd,
   fun d => Except.ok (mkRec0 d)⟩

/-- Like `env0` but the session explicitly selects structured mode. -/
def envS : EndEnv :=
  { env0 with getSession := some ⟨some CommitMode.structured, none, none⟩ }

/-- A successful `startExecution` environment. -/
def senv0 : StartEnv := ⟨Except.ok 1, Except.ok "h0"⟩

/-- Claim C1 (amended): for every `endExecution` call with an active context,
when the post-state hash read, the diff capture and the persistence succeed,
exactly one `ExecutionDiffRecord` is persisted via `createExecutionDiff` —
even when `beforeHash` equals `afterHash`, in which case the record carries
the stats of the working-directory diff (0 files changed exactly when the
working tree reports none) — and an `execution-completed` event carrying the
sessionId, the execution sequence, the created record's id and the persisted
stats is emitted. -/
theorem endExecution_persists_one_record
    (env : EndEnv) (st : TrackerState) (sessionId : String)
    (context : ExecutionContext) (afterCommitHash : String) (g : GitDiffResult)
    (r : ExecutionDiffRecord)
    (hctx : mapGet st sessionId = some context)
    (hhash : env.getCurrentCommitHash = Except.ok afterCommitHash)
    (hcap : (if afterCommitHash = context.beforeCommitHash
             then env.captureWorkingDirectoryDiff
             else env.captureCommitDiff context.beforeCommitHash afterCommitHash)
        = Except.ok g)
    (hk : env.createExecutionDiff (mkDiffData sessionId context g) = Except.ok r) :
    persistedRecords (endExecution env st sessionId).trace
        = [mkDiffData sessionId context g] ∧
    (endExecution env st sessionId).trace.filter isEmitCompletedEv
        = [Event.emitCompleted sessionId context.executionSequence r.id g.stats] ∧
    (endExecution env st sessionId).result = Except.ok () ∧
    (mkDiffData sessionId context g).stats_files_changed = g.stats.filesChanged ∧
    (afterCommitHash = context.beforeCommitHash →
        env.captureWorkingDirectoryDiff = Except.ok g) := by
  have hrun := endExecution_ok env st sessionId context afterCommitHash g r hctx hhash hcap hk
  refine ⟨?_, ?_, ?_, rfl, ?_⟩
  · rw [hrun]
    simp only [persistedRecords_append, persistedRecords_commitPhaseTrace,
      persistedRecords_structuredWaitTrace, List.nil_append, List.append_nil]
    by_cases h : afterCommitHash = context.beforeCommitHash <;>
      simp [h, persistedRecords, List.filterMap_cons]
  · rw [hrun]
    simp only [List.filter_append,
      filter_commitPhaseTrace isEmitCompletedEv env sessionId context _
        (fun _ _ _ _ _ => rfl) (fun _ _ => rfl),
      filter_structuredWaitTrace isEmitCompletedEv env sessionId context _
        (fun _ _ _ => rfl) (fun _ _ => rfl),
      List.nil_append, List.append_nil]
    by_cases h : afterCommitHash = context.beforeCommitHash <;>
      simp [h, List.filter_cons, isEmitCompletedEv]
  · rw [hrun]
  · intro h
    rw [if_pos h] at hcap
    exact hcap

/-- Witness for C1's amended theorem: in `env0` the hash is unchanged and the
single persisted record is the working-directory diff's row. -/
theorem endExecution_persists_one_record_witness :
    persistedRecords (endExecution env0 st0 "s1").trace
      = [mkDiffData "s1" ctx0 gdWd] :=
  (endExecution_persists_one_record env0 st0 "s1" ctx0 "h0" gdWd
    (mkRec0 (mkDiffData "s1" ctx0 gdWd)) rfl rfl rfl rfl).1

/-- Counterexample to claim C1 as stated: with `beforeHash == afterHash` the
persisted record carries the working-directory diff's stats — here 2 changed
files, not 0. -/
theorem endExecution_zero_stat_counterexample :
    mapGet st0 "s1" = some ctx0 ∧
    env0.getCurrentCommitHash = Except.ok ctx0.beforeCommitHash ∧
    (persistedRecords (endExecution env0 st0 "s1").trace).map
        (fun d => d.stats_files_changed) = [2] := by
  refine ⟨rfl, rfl, ?_⟩
  rfl

/-- Claim C2: for every session, `isTracking` is false before any
`startExecution` (empty registry), true after a successful `startExecution`,
and false again after `endExecution` (normal return or re-thrown error alike)
and after `cancelExecution`. -/
theorem isTracking_lifecycle (senv : StartEnv) (env : EndEnv) (st : TrackerState)
    (sessionId worktreePath : String) (promptMarkerId : Option Nat)
    (prompt : Option String) :
    isTracking emptyTrackerState sessionId = false ∧
    ((startExecution senv st sessionId worktreePath promptMarkerId prompt).result
        = Except.ok () →
      isTracking
        (startExecution senv st sessionId worktreePath promptMarkerId prompt).state
        sessionId = true) ∧
    isTracking (endExecution env st sessionId).state sessionId = false ∧
    isTracking (cancelExecution st sessionId).1 sessionId = false := by
  refine ⟨rfl, ?_, ?_, ?_⟩
  · intro hok
    unfold startExecution at hok ⊢
    rcases hs : senv.getNextExecutionSequence with e | seq
    · rw [hs] at hok
      simp at hok
    · rcases hh : senv.getCurrentCommitHash with e | h
      · rw [hs, hh] at hok
        simp at hok
      · simp [isTracking, mapGet_set_self]
  · rcases hm : mapGet st sessionId with _ | context
    · unfold endExecution
      rw [hm]
      simp [isTracking, hm]
    · rw [endExecution_state env st sessionId context hm]
      simp [isTracking, mapGet_delete_self]
  · unfold cancelExecution
    rcases hm : mapGet st sessionId with _ | context
    · simp [isTracking, hm]
    · simp [isTracking, mapGet_delete_self]

/-- Witness for C2 at a concrete environment: after `endExecution` on a
registry holding the session, tracking is off. -/
theorem isTracking_lifecycle_witness :
    isTracking (endExecution env0 st0 "s1").state "s1" = false :=
  (isTracking_lifecycle senv0 env0 st0 "s1" "/wt" none none).2.2.1

/-- Claim C3: commit-mode resolution precedence — explicit `commitMode` wins
and forces the mode over any parsed settings; a parse failure of the
serialized settings is absorbed and the defaults (with the forced mode) are
used; otherwise legacy `autoCommit` maps `true` to checkpoint and `false` to
disabled; otherwise the default is checkpoint with prefix `"checkpoint: "`.
The resolver is a total function, so a malformed payload never raises. -/
theorem resolveCommitMode_precedence
    (parse : String → Option ParsedCommitModeSettings) (s : Session) :
    (∀ m, s.commitMode = some m → (resolveCommitMode parse (some s)).mode = m) ∧
    (s.commitMode = none → s.autoCommit = some true →
        resolveCommitMode parse (some s)
          = ⟨CommitMode.checkpoint, "checkpoint: "⟩) ∧
    (s.commitMode = none → s.autoCommit = some false →
        resolveCommitMode parse (some s)
          = ⟨CommitMode.disabled, "checkpoint: "⟩) ∧
    (s.commitMode = none → s.autoCommit = none →
        resolveCommitMode parse (some s) = defaultCommitModeSettings) ∧
    (resolveCommitMode parse none = defaultCommitModeSettings) ∧
    (∀ m payload, s.commitMode = some m → s.commitModeSettings = some payload →
        parse payload = none →
        resolveCommitMode parse (some s) = ⟨m, "checkpoint: "⟩) ∧
    (∀ m payload p, s.commitMode = some m → s.commitModeSettings = some payload →
        parse payload = some p →
        resolveCommitMode parse (some s)
          = ⟨m, p.checkpointPrefixText.getD "checkpoint: "⟩) := by
  refine ⟨?_, ?_, ?_, ?_, rfl, ?_, ?_⟩
  · intro m hm
    rcases hcs : s.commitModeSettings with _ | payload
    · simp [resolveCommitMode, hm, hcs, defaultCommitModeSettings]
    · rcases hp : parse payload with _ | p <;>
        simp [resolveCommitMode, hm, hcs, hp, defaultCommitModeSettings]
  · intro hm ha
    simp [resolveCommitMode, hm, ha, defaultCommitModeSettings]
  · intro hm ha
    simp [resolveCommitMode, hm, ha, defaultCommitModeSettings]
  · intro hm ha
    simp [resolveCommitMode, hm, ha]
  · intro m payload hm hcs hp
    simp [resolveCommitMode, hm, hcs, hp, defaultCommitModeSettings]
  · intro m payload p hm hcs hp
    simp [resolveCommitMode, hm, hcs, hp, defaultCommitModeSettings]

/-- Witness for C3: explicit structured mode with an unparseable payload
resolves to structured mode over the default prefix, without failing. -/
theorem resolveCommitMode_precedence_witness :
    resolveCommitMode (fun _ => none)
        (some ⟨some CommitMode.structured, some "oops", none⟩)
      = ⟨CommitMode.structured, "checkpoint: "⟩ :=
  (resolveCommitMode_precedence (fun _ => none)
      ⟨some CommitMode.structured, some "oops", none⟩).2.2.2.2.2.1
    CommitMode.structured "oops" rfl rfl rfl

/-- Claim C4: the session-output events of an `endExecution` run with an
active context match the outcome table — `autocommit_error` exactly on a
failed commit attempt with an error set, `autocommit_success` exactly on a
successful checkpoint commit, `autocommit_mode` exactly on entering
structured mode, `autocommit_timeout` exactly when the structured wait
fails, `autocommit_claude_success` exactly when it succeeds with a detected
commit hash, and in disabled mode a successful commit phase emits nothing. -/
theorem endExecution_output_table (env : EndEnv) (st : TrackerState)
    (sessionId : String) (context : ExecutionContext)
    (hctx : mapGet st sessionId = some context) :
    ((∃ m ∈ sessionOutputs (endExecution env st sessionId).trace,
        m.subtype = OutputSubtype.autocommit_error)
      ↔ (env.handlePostPromptCommit.success = false
          ∧ strTruthy env.handlePostPromptCommit.error = true)) ∧
    ((∃ m ∈ sessionOutputs (endExecution env st sessionId).trace,
        m.subtype = OutputSubtype.autocommit_success)
      ↔ (env.handlePostPromptCommit.success = true
          ∧ (resolveCommitMode env.parseSettings env.getSession).mode
              = CommitMode.checkpoint)) ∧
    ((∃ m ∈ sessionOutputs (endExecution env st sessionId).trace,
        m.subtype = OutputSubtype.autocommit_mode)
      ↔ (env.handlePostPromptCommit.success = true
          ∧ (resolveCommitMode env.parseSettings env.getSession).mode
              = CommitMode.structured)) ∧
    ((∃ m ∈ sessionOutputs (endExecution env st sessionId).trace,
        m.subtype = OutputSubtype.autocommit_timeout)
      ↔ ((resolveCommitMode env.parseSettings env.getSession).mode
            = CommitMode.structured
          ∧ env.waitForStructuredCommit.success = false)) ∧
    ((∃ m ∈ sessionOutputs (endExecution env st sessionId).trace,
        m.subtype = OutputSubtype.autocommit_claude_success)
      ↔ ((resolveCommitMode env.parseSettings env.getSession).mode
            = CommitMode.structured
          ∧ env.waitForStructuredCommit.success = true
          ∧ strTruthy env.waitForStructuredCommit.commitHash = true)) ∧
    ((resolveCommitMode env.parseSettings env.getSession).mode
        = CommitMode.disabled →
      env.handlePostPromptCommit.success = true →
      sessionOutputs (endExecution env st sessionId).trace = []) := by
  rw [sessionOutputs_endExecution_eq env st sessionId context hctx]
  exact endOutputs_table _ _ _

/-- Witness for C4: in `env0` (successful checkpoint commit) no
`autocommit_error` message is written. -/
theorem endExecution_output_table_witness :
    (∃ m ∈ sessionOutputs (endExecution env0 st0 "s1").trace,
        m.subtype = OutputSubtype.autocommit_error)
      ↔ (env0.handlePostPromptCommit.success = false
          ∧ strTruthy env0.handlePostPromptCommit.error = true) :=
  (endExecution_output_table env0 st0 "s1" ctx0 rfl).1

/-- Claim C5: `startExecution` stores a context whose `beforeCommitHash` is
exactly the hash read from the worktree at call time and emits
`execution-started`; a failure of sequence allocation or of the hash read
propagates, leaving the registry unchanged and emitting nothing. -/
theorem startExecution_spec (env : StartEnv) (st : TrackerState)
    (sessionId worktreePath : String) (promptMarkerId : Option Nat)
    (prompt : Option String) :
    (∀ seq h, env.getNextExecutionSequence = Except.ok seq →
        env.getCurrentCommitHash = Except.ok h →
        startExecution env st sessionId worktreePath promptMarkerId prompt
          = ⟨mapSet st sessionId
               ⟨sessionId, worktreePath, promptMarkerId, h, seq, prompt⟩,
             [Event.emitStarted sessionId seq], Except.ok ()⟩) ∧
    (∀ e, env.getNextExecutionSequence = Except.error e →
        startExecution env st sessionId worktreePath promptMarkerId prompt
          = ⟨st, [], Except.error e⟩) ∧
    (∀ seq e, env.getNextExecutionSequence = Except.ok seq →
        env.getCurrentCommitHash = Except.error e →
        startExecution env st sessionId worktreePath promptMarkerId prompt
          = ⟨st, [], Except.error e⟩) ∧
    (∀ seq h, env.getNextExecutionSequence = Except.ok seq →
        env.getCurrentCommitHash = Except.ok h →
        getExecutionContext
            (startExecution env st sessionId worktreePath promptMarkerId prompt).state
            sessionId
          = some ⟨sessionId, worktreePath, promptMarkerId, h, seq, prompt⟩) := by
  refine ⟨?_, ?_, ?_, ?_⟩
  · intro seq h hseq hh
    unfold startExecution
    rw [hseq, hh]
  · intro e hseq
    unfold startExecution
    rw [hseq]
  · intro seq e hseq hh
    unfold startExecution
    rw [hseq, hh]
  · intro seq h hseq hh
    unfold startExecution
    rw [hseq, hh]
    exact mapGet_set_self st sessionId _

/-- Witness for C5: a successful start stores the context with the hash read
at call time and emits the started event. -/
theorem startExecution_spec_witness :
    startExecution senv0 st0 "s2" "/wt2" none none
      = ⟨mapSet st0 "s2" ⟨"s2", "/wt2", none, "h0", 1, none⟩,
         [Event.emitStarted "s2" 1], Except.ok ()⟩ :=
  (startExecution_spec senv0 st0 "s2" "/wt2" none none).1 1 "h0" rfl rfl

theorem endExecutionCore_trace_shape (env : EndEnv) (st : TrackerState)
    (sessionId : String) (context : ExecutionContext) :
    ∃ tail, (endExecutionCore env st sessionId context).trace
      = Event.callGetCurrentCommitHash context.worktreePath :: tail := by
  unfold endExecutionCore
  rcases h : env.getCurrentCommitHash with e | a
  · exact ⟨[], rfl⟩
  · exact ⟨_, rfl⟩

theorem filter_endExecutionCore (p : Event → Bool) (env : EndEnv)
    (st : TrackerState) (sessionId : String) (context : ExecutionContext)
    (hhr : ∀ a, p (Event.callGetCurrentCommitHash a) = false)
    (hcw : ∀ a, p (Event.callCaptureWorkingDirectoryDiff a) = false)
    (hcc : ∀ a b c, p (Event.callCaptureCommitDiff a b c) = false)
    (hcr : ∀ d, p (Event.callCreateExecutionDiff d) = false)
    (hem : ∀ a b c d, p (Event.emitCompleted a b c d) = false) :
    (endExecutionCore env st sessionId context).trace.filter p = [] := by
  unfold endExecutionCore
  rcases h : env.getCurrentCommitHash with e | a
  · simp [List.filter_cons, hhr]
  · dsimp only
    rw [List.filter_cons]
    simp only [hhr, ite_false, Bool.false_eq_true, if_neg]
    unfold endExecutionPostHash
    by_cases hb : a = context.beforeCommitHash
    · rw [if_pos hb,
        filter_finishDiff p env st sessionId context _ _ hcr hem]
      simp [List.filter_cons, hcw]
    · rw [if_neg hb,
        filter_finishDiff p env st sessionId context _ _ hcr hem]
      simp [List.filter_cons, hcc]

/-- Claim C6: after the commit phase `endExecution` re-reads the hash; when
it equals the stored `beforeCommitHash` exactly one capture call is made and
it is `captureWorkingDirectoryDiff(worktreePath)`, otherwise exactly one is
made and it is `captureCommitDiff(worktreePath, beforeHash, afterHash)`. -/
theorem endExecution_capture_choice (env : EndEnv) (st : TrackerState)
    (sessionId : String) (context : ExecutionContext) (afterCommitHash : String)
    (hctx : mapGet st sessionId = some context)
    (hhash : env.getCurrentCommitHash = Except.ok afterCommitHash) :
    (afterCommitHash = context.beforeCommitHash →
      (endExecution env st sessionId).trace.filter isCaptureCall
        = [Event.callCaptureWorkingDirectoryDiff context.worktreePath]) ∧
    (afterCommitHash ≠ context.beforeCommitHash →
      (endExecution env st sessionId).trace.filter isCaptureCall
        = [Event.callCaptureCommitDiff context.worktreePath
             context.beforeCommitHash afterCommitHash]) := by
  constructor <;> intro h <;>
    rw [endExecution_some env st sessionId context hctx,
      endExecutionCore_ok env st sessionId context afterCommitHash hhash] <;>
    dsimp only <;>
    rw [List.filter_append, List.filter_append,
      filter_commitPhaseTrace isCaptureCall env sessionId context _
        (fun _ _ _ _ _ => rfl) (fun _ _ => rfl),
      filter_structuredWaitTrace isCaptureCall env sessionId context _
        (fun _ _ _ => rfl) (fun _ _ => rfl),
      List.filter_cons] <;>
    unfold endExecutionPostHash
  · rw [if_pos h,
      filter_finishDiff isCaptureCall env st sessionId context _ _
        (fun _ => rfl) (fun _ _ _ _ => rfl)]
    simp [List.filter_cons, isCaptureCall]
  · rw [if_neg h,
      filter_finishDiff isCaptureCall env st sessionId context _ _
        (fun _ => rfl) (fun _ _ _ _ => rfl)]
    simp [List.filter_cons, isCaptureCall]

/-- Witness for C6: in `env0` the hash is unchanged and the only capture
call is the working-directory one. -/
theorem endExecution_capture_choice_witness :
    (endExecution env0 st0 "s1").trace.filter isCaptureCall
      = [Event.callCaptureWorkingDirectoryDiff ctx0.worktreePath] :=
  (endExecution_capture_choice env0 st0 "s1" ctx0 "h0" rfl rfl).1 rfl

/-- Claim C7: `waitForStructuredCommit` is invoked exactly when the resolved
mode is structured, with the 5000 ms timeout; the call sits after the
`handlePostPromptCommit` call and before the post-state hash re-read, with
only session-output writes in between. -/
theorem endExecution_structured_wait (env : EndEnv) (st : TrackerState)
    (sessionId : String) (context : ExecutionContext)
    (hctx : mapGet st sessionId = some context) :
    ((endExecution env st sessionId).trace.filter isWaitCall
      = (if (resolveCommitMode env.parseSettings env.getSession).mode
            = CommitMode.structured
         then [Event.callWaitForStructuredCommit sessionId context.worktreePath 5000]
         else [])) ∧
    ((resolveCommitMode env.parseSettings env.getSession).mode
        = CommitMode.structured →
      ∃ pre mid post,
        (endExecution env st sessionId).trace
          = pre ++ Event.callWaitForStructuredCommit sessionId
                context.worktreePath 5000
              :: (mid ++ Event.callGetCurrentCommitHash context.worktreePath :: post) ∧
        Event.callHandlePostPromptCommit sessionId context.worktreePath
            (resolveCommitMode env.parseSettings env.getSession) context.prompt
            context.executionSequence ∈ pre ∧
        pre.filter isHashReadCall = [] ∧
        mid.filter isHashReadCall = []) := by
  constructor
  · rw [endExecution_some env st sessionId context hctx]
    dsimp only
    rw [List.filter_append, List.filter_append,
      filter_commitPhaseTrace isWaitCall env sessionId context _
        (fun _ _ _ _ _ => rfl) (fun _ _ => rfl),
      filter_wait_structuredWaitTrace env sessionId context _,
      filter_endExecutionCore isWaitCall env st sessionId context
        (fun _ => rfl) (fun _ => rfl) (fun _ _ _ => rfl) (fun _ => rfl)
        (fun _ _ _ _ => rfl)]
    simp
  · intro hm
    obtain ⟨tail, htail⟩ := endExecutionCore_trace_shape env st sessionId context
    refine ⟨commitPhaseTrace env sessionId context
        (resolveCommitMode env.parseSettings env.getSession),
      (structuredWaitMessages env.waitForStructuredCommit).map
        (Event.addSessionOutput sessionId),
      tail, ?_, ?_, ?_, ?_⟩
    · rw [endExecution_some env st sessionId context hctx]
      dsimp only
      rw [htail]
      unfold structuredWaitTrace
      rw [if_pos hm]
      simp
    · unfold commitPhaseTrace
      exact List.mem_cons_self _ _
    · exact filter_commitPhaseTrace isHashReadCall env sessionId context _
        (fun _ _ _ _ _ => rfl) (fun _ _ => rfl)
    · exact filter_map_addSessionOutput isHashReadCall (fun _ _ => rfl) sessionId _

/-- Witness for C7: with an explicitly structured session the wait call with
the 5000 ms bound appears exactly once. -/
theorem endExecution_structured_wait_witness :
    (endExecution envS st0 "s1").trace.filter isWaitCall
      = [Event.callWaitForStructuredCommit "s1" ctx0.worktreePath 5000] := by
  have h := (endExecution_structured_wait envS st0 "s1" ctx0 rfl).1
  simpa using h

theorem startExecution_state_ok (env : StartEnv) (st : TrackerState)
    (sessionId worktreePath : String) (promptMarkerId : Option Nat)
    (prompt : Option String) (seq : Nat) (h : String)
    (hseq : env.getNextExecutionSequence = Except.ok seq)
    (hh : env.getCurrentCommitHash = Except.ok h) :
    (startExecution env st sessionId worktreePath promptMarkerId prompt).state
      = mapSet st sessionId
          ⟨sessionId, worktreePath, promptMarkerId, h, seq, prompt⟩ := by
  unfold startExecution
  rw [hseq, hh]

/-- Claim C8: the registry is keyed by sessionId, so at most one context per
session exists (distinct keys are preserved by every operation), and a second
`startExecution` for the same session overwrites the stored context wholesale
with the freshly built one, leaving other sessions untouched. -/
theorem registry_single_context (env : StartEnv) (eenv : EndEnv)
    (st : TrackerState) (sessionId worktreePath : String)
    (promptMarkerId : Option Nat) (prompt : Option String) (seq : Nat) (h : String)
    (hseq : env.getNextExecutionSequence = Except.ok seq)
    (hh : env.getCurrentCommitHash = Except.ok h) :
    getExecutionContext
        (startExecution env st sessionId worktreePath promptMarkerId prompt).state
        sessionId
      = some ⟨sessionId, worktreePath, promptMarkerId, h, seq, prompt⟩ ∧
    (∀ s', s' ≠ sessionId →
      getExecutionContext
          (startExecution env st sessionId worktreePath promptMarkerId prompt).state s'
        = getExecutionContext st s') ∧
    (keysNodup st →
      keysNodup (startExecution env st sessionId worktreePath promptMarkerId prompt).state) ∧
    (keysNodup st → keysNodup (endExecution eenv st sessionId).state) ∧
    (keysNodup st → keysNodup (cancelExecution st sessionId).1) := by
  have hst := startExecution_state_ok env st sessionId worktreePath promptMarkerId
    prompt seq h hseq hh
  refine ⟨?_, ?_, ?_, ?_, ?_⟩
  · rw [hst]
    exact mapGet_set_self st sessionId _
  · intro s' hs'
    rw [hst]
    exact mapGet_set_ne st sessionId s' _ hs'
  · intro hnd
    rw [hst]
    exact keysNodup_mapSet st sessionId _ hnd
  · intro hnd
    rcases hm : mapGet st sessionId with _ | ctx
    · unfold endExecution
      rw [hm]
      exact hnd
    · rw [endExecution_state eenv st sessionId ctx hm]
      exact keysNodup_mapDelete st sessionId hnd
  · intro hnd
    unfold cancelExecution
    rcases hm : mapGet st sessionId with _ | ctx
    · exact hnd
    · exact keysNodup_mapDelete st sessionId hnd

/-- Witness for C8: restarting session `"s1"` on a registry already holding
`ctx0` replaces the context wholesale with the freshly built one. -/
theorem registry_single_context_witness :
    getExecutionContext (startExecution senv0 st0 "s1" "/wt2" none none).state "s1"
      = some ⟨"s1", "/wt2", none, "h0", 1, none⟩ :=
  (registry_single_context senv0 env0 st0 "s1" "/wt2" none none 1 "h0" rfl rfl).1

/-- Claim C9: with no active context for the session, `endExecution` returns
normally with no persistence call and no event, and `cancelExecution`
removes nothing and emits nothing — both leave the registry unchanged. -/
theorem inactive_session_noop (env : EndEnv) (st : TrackerState)
    (sessionId : String) (h : mapGet st sessionId = none) :
    endExecution env st sessionId = ⟨st, [], Except.ok ()⟩ ∧
    cancelExecution st sessionId = (st, []) := by
  constructor
  · unfold endExecution
    rw [h]
  · unfold cancelExecution
    rw [h]

/-- Witness for C9 on the empty registry. -/
theorem inactive_session_noop_witness :
    endExecution env0 emptyTrackerState "s9" = ⟨emptyTrackerState, [], Except.ok ()⟩ :=
  (inactive_session_noop env0 emptyTrackerState "s9" rfl).1

/-- A concrete `combineDiffs` collaborator for witnesses. -/
def combine0 : List GitDiffResult → GitDiffResult :=
  fun diffs => ⟨"", ⟨diffs.length, 0, 0⟩, [], "", ""⟩

/-- Concrete persisted rows: one with a diff, one null diff, one empty diff. -/
def recs0 : List ExecutionDiffRecord :=
  [⟨1, some "d1", 1, 0, 1, some ["a"], "h0", "h1"⟩,
   ⟨2, none, 0, 0, 0, none, "h1", "h1"⟩,
   ⟨3, some "", 0, 0, 0, none, "h1", "h1"⟩]

/-- Claim C10: `getCombinedDiff` hands to `combineDiffs` exactly the
session's persisted rows whose diff text is truthy (non-null, non-empty),
mapped to `GitDiffResult`; the `executionIds` filter applies only when the
list is present and non-empty, so an empty array selects everything, the
same as omitting the argument. -/
theorem getCombinedDiff_filtering
    (combineDiffs : List GitDiffResult → GitDiffResult)
    (executions : List ExecutionDiffRecord) :
    getCombinedDiff combineDiffs executions (some [])
        = getCombinedDiff combineDiffs executions none ∧
    combinedDiffInputs executions (some []) = combinedDiffInputs executions none ∧
    (∀ ids, getCombinedDiff combineDiffs executions (some ids)
        = combineDiffs (combinedDiffInputs executions (some ids))) ∧
    (∀ d, d ∈ combinedDiffInputs executions none ↔
        ∃ e, e ∈ executions ∧ strTruthy e.git_diff = true
          ∧ d = toGitDiffResult e) ∧
    (∀ ids d, ids ≠ [] →
        (d ∈ combinedDiffInputs executions (some ids) ↔
          ∃ e, e ∈ executions ∧ e.id ∈ ids ∧ strTruthy e.git_diff = true
            ∧ d = toGitDiffResult e)) := by
  have h2 : combinedDiffInputs executions (some [])
      = combinedDiffInputs executions none := by
    simp [combinedDiffInputs]
  refine ⟨congrArg combineDiffs h2, h2, fun ids => rfl, ?_, ?_⟩
  · intro d
    simp only [combinedDiffInputs, List.mem_map, List.mem_filter]
    constructor
    · rintro ⟨e, ⟨he, ht⟩, rfl⟩
      exact ⟨e, he, ht, rfl⟩
    · rintro ⟨e, he, ht, rfl⟩
      exact ⟨e, ⟨he, ht⟩, rfl⟩
  · intro ids d hne
    have hlen : 0 < ids.length := List.length_pos.mpr hne
    simp only [combinedDiffInputs, hlen, if_pos, List.mem_map, List.mem_filter,
      gt_iff_lt]
    constructor
    · rintro ⟨e, ⟨⟨he, hid⟩, ht⟩, rfl⟩
      exact ⟨e, he, List.elem_iff.mp hid, ht, rfl⟩
    · rintro ⟨e, he, hid, ht, rfl⟩
      exact ⟨e, ⟨⟨he, List.elem_iff.mpr hid⟩, ht⟩, rfl⟩

/-- Witness for C10: on concrete rows, the empty id list is the same as no
filter, and only the non-empty diff row survives. -/
theorem getCombinedDiff_filtering_witness :
    getCombinedDiff combine0 recs0 (some [])
      = getCombinedDiff combine0 recs0 none :=
  (getCombinedDiff_filtering combine0 recs0).1

end CrystalExec
